import Mathlib

/-!
Shallow embedding of the Vosk captions pipeline (src/main.py and
src/app/caption.py) for checking the natural-language specification.

Pure decision logic of the source is translated into executable Lean
definitions: subprocess outcomes become explicit records of exit code and
output-file state, the encoding retry loop becomes a fuelled recursion, and
the HTTP admission check becomes a function of the in-flight flag.
-/

/-! ## Subprocess result model (section 6 of the spec)

Every external tool invocation in the source is observed through its exit
code and, where the source checks it, the declared output file. -/

/-- Observable outcome of one external subprocess invocation: exit code,
whether the declared output file exists, and its size in bytes. -/
structure SubprocResult where
  rc : Int
  outExists : Bool
  outSize : Nat
deriving DecidableEq, Repr

/-- Embeds verify_file_exists (caption.py lines 32-41): the file must exist
and have nonzero size. -/
def verifyFileExists (ex : Bool) (size : Nat) : Bool :=
  if ex = false then false
  else if size = 0 then false
  else true

/-- Embeds the success decision of run_ffmpeg_command (caption.py lines
103-135): nonzero exit code fails; when an output file is declared it is
additionally checked with verify_file_exists. Audio extraction (lines
137-157) routes through this with an output file declared. -/
def runFfmpegCommand (r : SubprocResult) (hasOutput : Bool) : Bool :=
  if r.rc ≠ 0 then false
  else if hasOutput = true ∧ verifyFileExists r.outExists r.outSize = false then false
  else true

/-- Embeds the success decision of each hardware encode invocation in
try_intel_arc_encoding (caption.py lines 272-279, 304-311, 334-341): the
source checks only result.returncode == 0 and never looks at the output
file. -/
def hwInvocationSuccess (r : SubprocResult) : Bool :=
  r.rc == 0

/-- Embeds the success decision of the software encode in process_video
(caption.py lines 575-585): nonzero exit code fails, then a missing output
file fails; the output size is not checked. -/
def swEncodeCheck (r : SubprocResult) : Bool :=
  if r.rc ≠ 0 then false
  else if r.outExists = false then false
  else true

/-- Follows the words of the spec (section 6): success is defined as exit
code 0 AND the declared output file existing with nonzero size. Stated for
comparison with the decisions the source actually makes. -/
def specEncodeSuccess (r : SubprocResult) : Bool :=
  r.rc == 0 && r.outExists && r.outSize != 0

/-! ## HTTP admission check (src/main.py, create_caption)

The single-flight flag is checked and set under processing_lock before the
try/finally block begins; a request rejected for concurrency raises before
the try is entered, so the finally that resets the flag does not run for
it and no temporary file has been created yet. -/

/-- Outcome of one create_caption request (src/main.py lines 55-183). -/
inductive CaptionOutcome where
  | rejected429
  | badFormat400
  | tooLarge413
  | serverError500
  | success
deriving DecidableEq, Repr

/-- Observable effects of one create_caption request: HTTP outcome, how
many temporary files were created while handling it, whether the
finally-block flag reset executed, and the in-flight flag value after the
request finishes. -/
structure RequestResult where
  outcome : CaptionOutcome
  tempFilesCreated : Nat
  flagResetExecuted : Bool
  finalInFlight : Bool
deriving DecidableEq, Repr

/-- Embeds create_caption (src/main.py lines 57-183). inFlight is the
processing_in_progress flag at admission; validExt is the extension check
at line 77; sizeOk is the per-chunk size check at line 102; procOk is the
process_video result. The concurrency rejection at lines 67-73 raises
inside the lock, before the try block, so it creates no temporary file and
never reaches the finally that resets the flag; every other path enters
the try and so executes the finally. The two NamedTemporaryFile objects at
lines 88-89 are created only after the extension check passes. -/
def createCaption (inFlight validExt sizeOk procOk : Bool) : RequestResult :=
  if inFlight then
    { outcome := CaptionOutcome.rejected429
      tempFilesCreated := 0
      flagResetExecuted := false
      finalInFlight := true }
  else if validExt = false then
    { outcome := CaptionOutcome.badFormat400
      tempFilesCreated := 0
      flagResetExecuted := true
      finalInFlight := false }
  else if sizeOk = false then
    { outcome := CaptionOutcome.tooLarge413
      tempFilesCreated := 2
      flagResetExecuted := true
      finalInFlight := false }
  else if procOk = false then
    { outcome := CaptionOutcome.serverError500
      tempFilesCreated := 2
      flagResetExecuted := true
      finalInFlight := false }
  else
    { outcome := CaptionOutcome.success
      tempFilesCreated := 2
      flagResetExecuted := true
      finalInFlight := false }

/-! ## Caption cue timing (create_drawtext_filter, caption.py lines 70-101)

The alpha expression interpolated at line 95 ramps linearly over a fixed
0.05 second window after start and before end; the window is the literal
constant 0.05 in the source, independent of the cue duration. Times are
modelled as rationals. -/

/-- The fade window constant interpolated into the alpha expression at
caption.py line 95: the literal 0.05 seconds. -/
def fadeWindow : ℚ := 1 / 20

/-- Embeds the alpha timing expression of caption.py line 95 for a cue
with the given start and stop times, evaluated at time t: linear ramp up
during the first fadeWindow seconds, linear ramp down during the last
fadeWindow seconds, and 1 in between. -/
def cueAlpha (s e t : ℚ) : ℚ :=
  if t < s + fadeWindow then (t - s) / fadeWindow
  else if e - t < fadeWindow then (e - t) / fadeWindow
  else 1

/-! ## Encoding fallback controller (try_intel_arc_encoding, caption.py 230-387)

The source loops for attempt in range(3). Inside one iteration it runs
method 1 (VA-API decode + CPU filter + VA-API encode); on failure it runs
method 2 (CPU decode + VA-API encode); on failure it runs method 3 (QSV).
A failing iteration sleeps 2 seconds and retries the whole cascade, except
after the final iteration, which breaks. The loop therefore interleaves
the methods round by round rather than exhausting one method before the
next. -/

/-- The encode methods appearing in the source, in the priority order of
the nested try blocks of try_intel_arc_encoding, plus the guaranteed
software path of process_video. -/
inductive EncMethod where
  | hwHybrid
  | hwCpuVaapi
  | hwQsv
  | sw
deriving DecidableEq, Repr

/-- Outcomes of the three hardware invocations within one loop iteration:
r 0, r 1, r 2 are the success bits of methods 1, 2 and 3. -/
def cascadeOk (r : Fin 3 → Bool) : Bool :=
  r 0 || r 1 || r 2

/-- The methods actually invoked during one loop iteration of
try_intel_arc_encoding: method 1 always runs; method 2 runs only if
method 1 failed; method 3 runs only if method 2 also failed. -/
def methodCascade (r : Fin 3 → Bool) : List EncMethod :=
  if r 0 then [EncMethod.hwHybrid]
  else if r 1 then [EncMethod.hwHybrid, EncMethod.hwCpuVaapi]
  else [EncMethod.hwHybrid, EncMethod.hwCpuVaapi, EncMethod.hwQsv]

/-- Sequence of hardware invocations performed by the retry loop of
try_intel_arc_encoding, starting at iteration i with the given number of
iterations remaining. hw i m is the success bit of method m during
iteration i. A successful iteration returns immediately; a failed final
iteration breaks; otherwise the loop retries the whole cascade. -/
def arcTrace (hw : Nat → Fin 3 → Bool) : Nat → Nat → List EncMethod
  | _, 0 => []
  | i, fuel + 1 =>
    if cascadeOk (hw i) then methodCascade (hw i)
    else if fuel = 0 then methodCascade (hw i)
    else methodCascade (hw i) ++ arcTrace hw (i + 1) fuel

/-- Whether the retry loop of try_intel_arc_encoding returns True, same
recursion structure as arcTrace. -/
def arcSuccess (hw : Nat → Fin 3 → Bool) : Nat → Nat → Bool
  | _, 0 => false
  | i, fuel + 1 =>
    if cascadeOk (hw i) then true
    else if fuel = 0 then false
    else arcSuccess hw (i + 1) fuel

/-- Number of time.sleep(2) backoffs performed by the retry loop (caption.py
line 379): one after every failed iteration except the last. -/
def arcSleeps (hw : Nat → Fin 3 → Bool) : Nat → Nat → Nat
  | _, 0 => 0
  | i, fuel + 1 =>
    if cascadeOk (hw i) then 0
    else if fuel = 0 then 0
    else arcSleeps hw (i + 1) fuel + 1

/-- Embeds try_intel_arc_encoding (caption.py lines 230-387) with
max_retries = 3 as called from process_video: if writing the filter file
fails (lines 237-243) the function returns False before any invocation;
otherwise the retry loop runs. Returns the list of hardware invocations
and the boolean result. -/
def tryIntelArcEncoding (writeOk : Bool) (hw : Nat → Fin 3 → Bool) :
    List EncMethod × Bool :=
  if writeOk then (arcTrace hw 0 3, arcSuccess hw 0 3)
  else ([], false)

/-- Embeds the encoding stage of process_video (caption.py lines 520-585):
when the one-time GPU probe succeeded, try_intel_arc_encoding runs first
and its success returns immediately; otherwise, and when the probe failed,
the software branch runs exactly once. swOk is the software branch result
(filter file written, exit code 0, output file exists). Returns the
overall result and the full sequence of encode attempts. -/
def encodeStage (useGpu writeOk : Bool) (hw : Nat → Fin 3 → Bool)
    (swOk : Bool) : Bool × List EncMethod :=
  if useGpu then
    if (tryIntelArcEncoding writeOk hw).2 then
      (true, (tryIntelArcEncoding writeOk hw).1)
    else
      (swOk, (tryIntelArcEncoding writeOk hw).1 ++ [EncMethod.sw])
  else (swOk, [EncMethod.sw])

/-! ## Timed words and the whole pipeline (process_video, caption.py 474-603) -/

/-- One word with timings as produced by the transcription result JSON
(caption.py transcribe_audio): the word text and its start and stop times
in seconds. The stop field is named end in the source JSON. -/
structure TimedWord where
  word : List Char
  start : ℚ
  stop : ℚ
deriving DecidableEq, Repr

/-- Environment of one process_video call: results of the one-time GPU
probe, of video validation, of audio extraction (and whether ffmpeg left
an audio file on disk), the transcribed words, and the outcomes of every
encoder invocation. -/
structure PVEnv where
  useGpu : Bool
  videoValid : Bool
  audioFileWritten : Bool
  audioOk : Bool
  words : List TimedWord
  hwWriteOk : Bool
  hw : Nat → Fin 3 → Bool
  swWriteOk : Bool
  swRc0 : Bool
  swOutExists : Bool

/-- The try-block body of process_video (caption.py lines 477-599): the
three raise statements for invalid video, failed extraction and empty
transcription become errors; otherwise the encoding stage result is
returned. -/
def processVideoBody (env : PVEnv) : Except String Bool :=
  if env.videoValid = false then Except.error "Invalid or corrupted video file"
  else if env.audioOk = false then Except.error "Audio extraction failed"
  else if env.words = [] then Except.error "No words were transcribed"
  else Except.ok (encodeStage env.useGpu env.hwWriteOk env.hw
    (env.swWriteOk && env.swRc0 && env.swOutExists)).1

/-- Embeds process_video (caption.py lines 474-603): the outer except
block at lines 601-603 catches every raised error and returns False, so
the caller always receives a boolean. -/
def processVideo (env : PVEnv) : Bool :=
  match processVideoBody env with
  | Except.ok b => b
  | Except.error _ => false

/-- Which temporary files created by the job still exist on disk after
process_video returns. -/
structure FilesRemaining where
  audioFile : Bool
  hwFilterFile : Bool
  swFilterFile : Bool
deriving DecidableEq, Repr

/-- Embeds the temp-file lifecycle of process_video together with
try_intel_arc_encoding. The audio file debug_audio.wav (line 499) is
written by extraction and never unlinked anywhere in the source. The
hardware filter file (lines 234-243) is unlinked only at lines 381-385,
which run after the retry loop ends; the early return True on a
successful invocation skips them, so the file survives hardware success.
The software filter file is unlinked in the finally block at lines
590-595 on every software-branch exit. -/
def processVideoFiles (env : PVEnv) : Bool × FilesRemaining :=
  if env.videoValid = false then
    (false, { audioFile := false, hwFilterFile := false, swFilterFile := false })
  else if env.audioOk = false then
    (false, { audioFile := env.audioFileWritten, hwFilterFile := false, swFilterFile := false })
  else if env.words = [] then
    (false, { audioFile := env.audioFileWritten, hwFilterFile := false, swFilterFile := false })
  else if env.useGpu then
    if (tryIntelArcEncoding env.hwWriteOk env.hw).2 then
      (true, { audioFile := env.audioFileWritten, hwFilterFile := env.hwWriteOk, swFilterFile := false })
    else
      (env.swWriteOk && env.swRc0 && env.swOutExists,
        { audioFile := env.audioFileWritten, hwFilterFile := false, swFilterFile := false })
  else
    (env.swWriteOk && env.swRc0 && env.swOutExists,
      { audioFile := env.audioFileWritten, hwFilterFile := false, swFilterFile := false })

/-! ## Word text escaping (create_drawtext_filter, caption.py line 77)

The source transforms each word by upper() and then replaces every
apostrophe by the six characters apostrophe backslash backslash backslash
apostrophe apostrophe, and wraps the result in apostrophes inside the
drawtext option text=. Characters are built by code point to keep the
embedding explicit. -/

/-- The apostrophe character, code point 39. -/
def squote : Char := Char.ofNat 39

/-- The backslash character, code point 92. -/
def bslash : Char := Char.ofNat 92

/-- The colon character, code point 58, the option separator of the
drawtext filter syntax. -/
def fcolon : Char := Char.ofNat 58

/-- Embeds the upper() call at caption.py line 77. -/
def upperWord (s : List Char) : List Char :=
  s.map Char.toUpper

/-- Embeds the replace call at caption.py line 77: every apostrophe is
replaced by apostrophe, backslash, backslash, backslash, apostrophe,
apostrophe; every other character is kept unchanged. -/
def escapeWordChars (s : List Char) : List Char :=
  s.flatMap fun c =>
    if c = squote then [squote, bslash, bslash, bslash, squote, squote]
    else [c]

/-- The characters standing for the text= option value in the emitted
filter string (caption.py line 81): the escaped upper-cased word wrapped
in apostrophes. -/
def quotedTextValue (s : List Char) : List Char :=
  squote :: escapeWordChars (upperWord s) ++ [squote]

/-- Modelled from the spec: the downstream filter syntax that consumes the
emitted text (section 4.3 and 4.4 speak of the filter-graph syntax of the
external media tool). An option value is read up to an unquoted option
separator; an apostrophe toggles quoting; a backslash escapes the next
character both inside and outside quotes. Returns the text the downstream
tool recovers from the emitted characters. -/
def ffUnquote : List Char → Bool → List Char
  | [], _ => []
  | [c], inQ =>
    if c = bslash then []
    else if c = squote then []
    else if inQ = false ∧ c = fcolon then []
    else [c]
  | c :: d :: rest, inQ =>
    if c = bslash then d :: ffUnquote rest inQ
    else if c = squote then ffUnquote (d :: rest) (!inQ)
    else if inQ = false ∧ c = fcolon then []
    else c :: ffUnquote (d :: rest) inQ

/-- The text that the downstream tool actually renders for a word after
one level of filter unquoting, per the source escaping: each apostrophe
comes back preceded by a literal backslash. Used to state the amended
escaping claim. -/
def doubleEscaped (s : List Char) : List Char :=
  s.flatMap fun c =>
    if c = squote then [bslash, squote]
    else [c]

/-! ## Caption layout engine (create_drawtext_filter, caption.py 70-101)

The source maps every word of word_timings to one drawtext directive,
without validating timings: there is no check of end > start nor of start
ordering anywhere in the function, and no clamping of the values
interpolated into the enable and alpha expressions. -/

/-- The data interpolated into one drawtext directive at caption.py lines
79-97: the escaped text, style numbers, the end of the fade-in window
(start + 0.05), and the enable window bounds, taken verbatim from the
word. -/
structure DrawtextDirective where
  fontPath : String
  text : List Char
  fontSize : Nat
  yOffset : Nat
  fadeInEnd : ℚ
  enableStart : ℚ
  enableEnd : ℚ
deriving DecidableEq, Repr

/-- One directive of create_drawtext_filter for one word. -/
def mkDirective (fontPath : String) (fontSize yOffset : Nat)
    (w : TimedWord) : DrawtextDirective :=
  { fontPath := fontPath
    text := escapeWordChars (upperWord w.word)
    fontSize := fontSize
    yOffset := yOffset
    fadeInEnd := w.start + fadeWindow
    enableStart := w.start
    enableEnd := w.stop }

/-- Embeds create_drawtext_filter (caption.py lines 70-101): one directive
per input word, in order, with no validation and no rejection path. -/
def createDrawtextFilter (ws : List TimedWord) (fontPath : String)
    (fontSize yOffset : Nat) : List DrawtextDirective :=
  ws.map (mkDirective fontPath fontSize yOffset)

/-- Follows the words of the spec (sections 3 and 8): every word satisfies
end > start and the starts are non-decreasing. -/
def validTimedSeq (ws : List TimedWord) : Bool :=
  ws.all (fun w => decide (w.start < w.stop)) &&
    decide (List.Chain' (fun a b => a.start ≤ b.start) ws)

/-! ## Render plan representation (caption.py lines 234-243 and 533-545)

Both encode paths write the whole filter text to a fixed file under the
debug directory and pass that path with the flag -filter_complex_script;
neither path ever passes the filter text inline, and no length threshold
appears anywhere in the source. -/

/-- The hardware filter file path (caption.py lines 234-235). -/
def hardwareFilterPath : String := "/app/debug_files/hardware_filter.txt"

/-- The software filter file path (caption.py lines 533-534). -/
def softwareFilterPath : String := "/app/debug_files/software_filter.txt"

/-- How a render plan reaches the external encoder: inline in the argv, or
through a file named in the argv. -/
inductive PlanRepr where
  | inline (plan : String)
  | viaFile (path : String)
deriving DecidableEq, Repr

/-- Representation chosen by try_intel_arc_encoding for the filter text:
the source writes it to the hardware filter file unconditionally (lines
237-243) before any invocation. -/
def hwPlanRepr (_plan : String) : PlanRepr :=
  PlanRepr.viaFile hardwareFilterPath

/-- Representation chosen by the software branch of process_video for the
filter text: the source writes it to the software filter file
unconditionally (lines 536-539). -/
def swPlanRepr (_plan : String) : PlanRepr :=
  PlanRepr.viaFile softwareFilterPath

/-- Follows the words of the spec (section 4.4): file-based exactly when
the serialized length exceeds a safe threshold, inline otherwise. Stated
for comparison with the unconditional choice the source makes. -/
def specPlanRepr (thr : Nat) (plan : String) : PlanRepr :=
  if thr < plan.length then PlanRepr.viaFile softwareFilterPath
  else PlanRepr.inline plan

/-- Argv of hardware method 1 of try_intel_arc_encoding (caption.py lines
253-270). -/
def hwHybridCmd (inp out : String) : List String :=
  ["ffmpeg", "-y", "-threads", "16",
   "-hwaccel", "vaapi", "-hwaccel_device", "/dev/dri/renderD128",
   "-i", inp,
   "-filter_complex_script", hardwareFilterPath,
   "-c:v", "h264_vaapi", "-vaapi_device", "/dev/dri/renderD128",
   "-qp", "23", "-c:a", "copy", "-movflags", "+faststart", out]

/-- Argv of hardware method 2 of try_intel_arc_encoding (caption.py lines
288-302). -/
def hwCpuVaapiCmd (inp out : String) : List String :=
  ["ffmpeg", "-y", "-threads", "16", "-i", inp,
   "-filter_complex_script", hardwareFilterPath,
   "-c:v", "h264_vaapi", "-vaapi_device", "/dev/dri/renderD128",
   "-qp", "23", "-c:a", "copy", "-movflags", "+faststart", out]

/-- Argv of hardware method 3 of try_intel_arc_encoding (caption.py lines
320-332). -/
def hwQsvCmd (inp out : String) : List String :=
  ["ffmpeg", "-y", "-threads", "16", "-i", inp,
   "-filter_complex_script", hardwareFilterPath,
   "-c:v", "h264_qsv", "-preset", "medium", "-global_quality", "23",
   "-c:a", "copy", "-movflags", "+faststart", out]

/-- Argv of the software encode of process_video (caption.py lines
541-555). -/
def swEncodeCmd (inp out : String) : List String :=
  ["ffmpeg", "-y", "-i", inp,
   "-filter_complex_script", softwareFilterPath,
   "-c:a", "copy", "-c:v", "libx264", "-preset", "medium", "-crf", "23",
   "-tune", "fastdecode", "-b:v", "20M", "-movflags", "+faststart",
   "-pix_fmt", "yuv420p", out]

/-! ## Derived definitions used by the claims -/

/-- Priority rank of an encode method in the fixed order of the source. -/
def methodRank : EncMethod → Nat
  | EncMethod.hwHybrid => 0
  | EncMethod.hwCpuVaapi => 1
  | EncMethod.hwQsv => 2
  | EncMethod.sw => 3

/-- Follows the words of the claim about retry grouping: an attempt
sequence exhausts the retries of each method before the next method is
first attempted exactly when the sequence is non-decreasing in priority
rank. -/
def retriesGrouped (t : List EncMethod) : Prop :=
  List.Chain' (fun a b => methodRank a ≤ methodRank b) t

/-- Hardware environment in which every invocation of every method fails,
the scenario of the fallback-correctness sentence of the spec. -/
def allFailHw : Nat → Fin 3 → Bool := fun _ _ => false

/-- The retry loop of try_intel_arc_encoding grouped by loop iteration:
the invocations of each iteration as one block, same recursion structure
as arcTrace. -/
def arcRounds (hw : Nat → Fin 3 → Bool) : Nat → Nat → List (List EncMethod)
  | _, 0 => []
  | i, fuel + 1 =>
    if cascadeOk (hw i) then [methodCascade (hw i)]
    else if fuel = 0 then [methodCascade (hw i)]
    else methodCascade (hw i) :: arcRounds hw (i + 1) fuel

/-- The possible shapes of one loop iteration of try_intel_arc_encoding:
the cascade stops at the first method that succeeds, so an iteration is
always a front portion of the full priority list. -/
def roundShapeOk (r : List EncMethod) : Bool :=
  r == [EncMethod.hwHybrid] ||
    r == [EncMethod.hwHybrid, EncMethod.hwCpuVaapi] ||
    r == [EncMethod.hwHybrid, EncMethod.hwCpuVaapi, EncMethod.hwQsv]

/-- A fully successful software-path run: GPU probe failed, one word
transcribed, software encode succeeded. Used as the cleanup
counterexample. -/
def c4Env : PVEnv :=
  { useGpu := false, videoValid := true, audioFileWritten := true,
    audioOk := true,
    words := [{ word := [Char.ofNat 72], start := 0, stop := 1 }],
    hwWriteOk := true, hw := fun _ _ => false,
    swWriteOk := true, swRc0 := true, swOutExists := true }

/-- A word whose stop time equals its start time: zero duration, invalid
per the spec invariant. -/
def zeroDurWord : TimedWord :=
  { word := [Char.ofNat 72], start := 1, stop := 1 }

/-! ## Claim C3: concurrency rejection -/

/-- C3: when a job is already in flight, a second create_caption request
is rejected immediately with the 429 concurrency outcome, creates no
temporary file, does not execute the flag-reset path, and leaves the
in-flight flag held by the running job unchanged, whatever the other
request parameters are. -/
theorem c3_concurrency_rejection (validExt sizeOk procOk : Bool) :
    createCaption true validExt sizeOk procOk =
      { outcome := CaptionOutcome.rejected429
        tempFilesCreated := 0
        flagResetExecuted := false
        finalInFlight := true } := rfl

/-- C3 witness: the rejection result at one concrete set of request
parameters. -/
theorem c3_concurrency_rejection_witness :
    createCaption true true true true =
      { outcome := CaptionOutcome.rejected429
        tempFilesCreated := 0
        flagResetExecuted := false
        finalInFlight := true } :=
  c3_concurrency_rejection true true true

/-! ## Claim C6: encoder invocation success definition -/

/-- C6 counterexample: a hardware encode invocation that exits with code 0
but leaves no output file is treated as successful by the source, while
the claimed definition of success rejects it. -/
theorem c6_success_counterexample :
    hwInvocationSuccess { rc := 0, outExists := false, outSize := 0 } = true ∧
      specEncodeSuccess { rc := 0, outExists := false, outSize := 0 } = false := by
  decide

/-- C6 amended: the claimed success definition (exit code 0 and output
existing with nonzero size) is exactly the decision used for invocations
routed through run_ffmpeg_command with a declared output file (audio
extraction); the hardware encode invocations treat exit code 0 alone as
success, and the software encode checks the exit code and output existence
but not its size. The claimed definition implies all three code
decisions. -/
theorem c6_success_amended (r : SubprocResult) :
    (specEncodeSuccess r = true →
      hwInvocationSuccess r = true ∧ swEncodeCheck r = true ∧
        runFfmpegCommand r true = true) ∧
    runFfmpegCommand r true = specEncodeSuccess r ∧
    (hwInvocationSuccess r = true ↔ r.rc = 0) ∧
    (swEncodeCheck r = true ↔ r.rc = 0 ∧ r.outExists = true) := by
  obtain ⟨rc, ex, sz⟩ := r
  by_cases h : rc = 0 <;> cases ex <;> by_cases hs : sz = 0 <;>
    simp [hwInvocationSuccess, swEncodeCheck, runFfmpegCommand,
      specEncodeSuccess, verifyFileExists, h, hs]

/-- C6 witness: the amended implication evaluated at an invocation with
exit code 0 and a nonempty output file. -/
theorem c6_success_witness :
    specEncodeSuccess { rc := 0, outExists := true, outSize := 5 } = true ∧
      (hwInvocationSuccess { rc := 0, outExists := true, outSize := 5 } = true ∧
        swEncodeCheck { rc := 0, outExists := true, outSize := 5 } = true ∧
        runFfmpegCommand { rc := 0, outExists := true, outSize := 5 } true = true) :=
  ⟨by decide, (c6_success_amended _).1 (by decide)⟩

/-! ## Claim C7: fade window clamping -/

/-- C7 counterexample: for a cue lasting 0.01 seconds the fade window used
by the source, the fixed constant fadeWindow, exceeds half the cue
duration, and the fade-in ramp is still active at the very end of the cue,
where the alpha value is only 1/5. -/
theorem c7_fade_counterexample :
    ¬ fadeWindow ≤ (((1 : ℚ) / 100) - 0) / 2 ∧
      cueAlpha 0 (1 / 100) (1 / 100) = 1 / 5 := by
  constructor
  · norm_num [fadeWindow]
  · norm_num [cueAlpha, fadeWindow]

/-- C7 amended: the fade window is the fixed constant 0.05 seconds with no
clamping; the claimed bound of half the cue duration holds only for cues
lasting at least 0.1 seconds, for which the ramp starts at 0, ends at 0,
and holds 1 strictly between the fade windows. -/
theorem c7_fade_amended (s e t : ℚ) (h : 1 / 10 ≤ e - s) :
    fadeWindow ≤ (e - s) / 2 ∧ cueAlpha s e s = 0 ∧ cueAlpha s e e = 0 ∧
      (s + fadeWindow ≤ t → t ≤ e - fadeWindow → cueAlpha s e t = 1) := by
  have hfw : fadeWindow = 1 / 20 := rfl
  refine ⟨by rw [hfw]; linarith, ?_, ?_, fun h1 h2 => ?_⟩
  · unfold cueAlpha
    rw [if_pos (by rw [hfw]; linarith)]
    simp
  · unfold cueAlpha
    rw [if_neg (not_lt.mpr (by rw [hfw]; linarith)),
      if_pos (by rw [hfw]; linarith)]
    simp
  · unfold cueAlpha
    rw [if_neg (not_lt.mpr h1), if_neg (not_lt.mpr (by linarith))]

/-- C7 witness: the amended facts evaluated on the cue from 0 to 1 second
at time 0.5. -/
theorem c7_fade_witness :
    (1 : ℚ) / 10 ≤ 1 - 0 ∧
      (fadeWindow ≤ ((1 : ℚ) - 0) / 2 ∧ cueAlpha 0 1 0 = 0 ∧
        cueAlpha 0 1 1 = 0 ∧ cueAlpha 0 1 (1 / 2) = 1) := by
  have h : (1 : ℚ) / 10 ≤ 1 - 0 := by norm_num
  obtain ⟨a, b, c, d⟩ := c7_fade_amended 0 1 (1 / 2) h
  exact ⟨h, a, b, c, d (by norm_num [fadeWindow]) (by norm_num [fadeWindow])⟩

/-! ## Claim C5: render plan spilling decision -/

/-- C5 counterexample: there is no threshold for which the source matches
the claimed rule, because the source spills every plan to a file: the
empty plan is below any threshold yet is still written to the filter file
rather than passed inline. -/
theorem c5_spill_counterexample :
    ¬ ∃ thr : Nat, ∀ plan : String, swPlanRepr plan = specPlanRepr thr plan := by
  rintro ⟨thr, h⟩
  have h0 := h ""
  simp [swPlanRepr, specPlanRepr] at h0

/-- C5 amended: the render plan is written to a filter file
unconditionally, for every plan and in both encode paths, and every encode
argv references the plan only through the script-file flag; no inline
representation exists in the source. -/
theorem c5_spill_amended (plan inp out : String) :
    hwPlanRepr plan = PlanRepr.viaFile hardwareFilterPath ∧
    swPlanRepr plan = PlanRepr.viaFile softwareFilterPath ∧
    (∃ pre post, hwHybridCmd inp out =
      pre ++ ["-filter_complex_script", hardwareFilterPath] ++ post) ∧
    (∃ pre post, hwCpuVaapiCmd inp out =
      pre ++ ["-filter_complex_script", hardwareFilterPath] ++ post) ∧
    (∃ pre post, hwQsvCmd inp out =
      pre ++ ["-filter_complex_script", hardwareFilterPath] ++ post) ∧
    (∃ pre post, swEncodeCmd inp out =
      pre ++ ["-filter_complex_script", softwareFilterPath] ++ post) := by
  refine ⟨rfl, rfl,
    ⟨["ffmpeg", "-y", "-threads", "16", "-hwaccel", "vaapi",
      "-hwaccel_device", "/dev/dri/renderD128", "-i", inp], _, rfl⟩,
    ⟨["ffmpeg", "-y", "-threads", "16", "-i", inp], _, rfl⟩,
    ⟨["ffmpeg", "-y", "-threads", "16", "-i", inp], _, rfl⟩,
    ⟨["ffmpeg", "-y", "-i", inp], _, rfl⟩⟩

/-- C5 witness: the file-based representation at one concrete plan. -/
theorem c5_spill_witness :
    swPlanRepr "drawtext" = PlanRepr.viaFile softwareFilterPath :=
  (c5_spill_amended "drawtext" "in.mp4" "out.mp4").2.1

/-! ## Controller lemmas -/

/-- The software method never appears among the invocations of one
hardware loop iteration. -/
theorem sw_not_mem_methodCascade (r : Fin 3 → Bool) :
    EncMethod.sw ∉ methodCascade r := by
  cases h0 : r 0 <;> cases h1 : r 1 <;> simp [methodCascade, h0, h1]

/-- The software method never appears in the hardware retry trace. -/
theorem sw_count_arcTrace (hw : Nat → Fin 3 → Bool) :
    ∀ fuel i, (arcTrace hw i fuel).count EncMethod.sw = 0 := by
  intro fuel
  induction fuel with
  | zero => intro i; rfl
  | succ n ih =>
    intro i
    simp only [arcTrace]
    split
    · exact List.count_eq_zero.mpr (sw_not_mem_methodCascade _)
    · split
      · exact List.count_eq_zero.mpr (sw_not_mem_methodCascade _)
      · rw [List.count_append, ih (i + 1),
          List.count_eq_zero.mpr (sw_not_mem_methodCascade _)]

/-- The software method never appears in the attempts of
try_intel_arc_encoding. -/
theorem sw_count_tryIntelArc (writeOk : Bool) (hw : Nat → Fin 3 → Bool) :
    (tryIntelArcEncoding writeOk hw).1.count EncMethod.sw = 0 := by
  cases writeOk <;> simp [tryIntelArcEncoding, sw_count_arcTrace]

/-- Every loop iteration of try_intel_arc_encoding is a front portion of
the priority list. -/
theorem methodCascade_shape (r : Fin 3 → Bool) :
    roundShapeOk (methodCascade r) = true := by
  cases h0 : r 0 <;> cases h1 : r 1 <;> simp [methodCascade, roundShapeOk, h0, h1]

/-- Each method is invoked at most once per loop iteration. -/
theorem count_methodCascade_le_one (m : EncMethod) (r : Fin 3 → Bool) :
    (methodCascade r).count m ≤ 1 := by
  cases h0 : r 0 <;> cases h1 : r 1 <;> cases m <;>
    simp [methodCascade, h0, h1, List.count_cons, List.count_nil]

/-- The hardware retry trace is the concatenation of its loop
iterations. -/
theorem arcTrace_eq_flatten (hw : Nat → Fin 3 → Bool) :
    ∀ fuel i, arcTrace hw i fuel = (arcRounds hw i fuel).flatten := by
  intro fuel
  induction fuel with
  | zero => intro i; rfl
  | succ n ih =>
    intro i
    simp only [arcTrace, arcRounds]
    split
    · simp
    · split
      · simp
      · rw [List.flatten_cons, ih (i + 1)]

/-- The loop runs at most as many iterations as its fuel. -/
theorem arcRounds_length_le (hw : Nat → Fin 3 → Bool) :
    ∀ fuel i, (arcRounds hw i fuel).length ≤ fuel := by
  intro fuel
  induction fuel with
  | zero => intro i; simp [arcRounds]
  | succ n ih =>
    intro i
    simp only [arcRounds]
    split
    · simp
    · split
      · simp
      · simpa using Nat.succ_le_succ (ih (i + 1))

/-- Every iteration block of the retry loop has one of the three cascade
shapes. -/
theorem arcRounds_shape (hw : Nat → Fin 3 → Bool) :
    ∀ fuel i, (arcRounds hw i fuel).all roundShapeOk = true := by
  intro fuel
  induction fuel with
  | zero => intro i; rfl
  | succ n ih =>
    intro i
    simp only [arcRounds]
    split
    · simp [methodCascade_shape]
    · split
      · simp [methodCascade_shape]
      · simp [List.all_cons, methodCascade_shape, ih (i + 1)]

/-- Each method is attempted at most fuel many times over the whole retry
loop. -/
theorem count_arcTrace_le (hw : Nat → Fin 3 → Bool) (m : EncMethod) :
    ∀ fuel i, (arcTrace hw i fuel).count m ≤ fuel := by
  intro fuel
  induction fuel with
  | zero => intro i; simp [arcTrace]
  | succ n ih =>
    intro i
    simp only [arcTrace]
    split
    · exact le_trans (count_methodCascade_le_one m _) (by omega)
    · split
      · exact le_trans (count_methodCascade_le_one m _) (by omega)
      · rw [List.count_append]
        have := count_methodCascade_le_one m (hw i)
        have := ih (i + 1)
        omega

/-- The loop backs off at most fuel minus one times. -/
theorem arcSleeps_le (hw : Nat → Fin 3 → Bool) :
    ∀ fuel i, arcSleeps hw i fuel ≤ fuel - 1 := by
  intro fuel
  induction fuel with
  | zero => intro i; simp [arcSleeps]
  | succ n ih =>
    intro i
    simp only [arcSleeps]
    split
    · omega
    · split
      · omega
      · have := ih (i + 1)
        omega

/-- One loop iteration succeeds exactly when one of its three methods
succeeds. -/
theorem cascadeOk_iff (r : Fin 3 → Bool) :
    cascadeOk r = true ↔ ∃ m : Fin 3, r m = true := by
  constructor
  · intro h
    rcases Bool.or_eq_true_iff.mp h with h1 | h2
    · rcases Bool.or_eq_true_iff.mp h1 with h3 | h4
      · exact ⟨0, h3⟩
      · exact ⟨1, h4⟩
    · exact ⟨2, h2⟩
  · rintro ⟨m, hm⟩
    fin_cases m <;> simp_all [cascadeOk]

/-- The retry loop returns True exactly when some iteration within its
fuel bound has a succeeding method. -/
theorem arcSuccess_iff (hw : Nat → Fin 3 → Bool) :
    ∀ fuel i, arcSuccess hw i fuel = true ↔
      ∃ k, k < fuel ∧ cascadeOk (hw (i + k)) = true := by
  intro fuel
  induction fuel with
  | zero => intro i; simp [arcSuccess]
  | succ n ih =>
    intro i
    simp only [arcSuccess]
    by_cases hc : cascadeOk (hw i) = true
    · rw [if_pos hc]
      simp only [true_iff]
      exact ⟨0, by omega, by simpa using hc⟩
    · rw [if_neg hc]
      rcases n with _ | m
      · rw [if_pos rfl]
        constructor
        · intro h
          exact absurd h (by simp)
        · rintro ⟨k, hk, h⟩
          interval_cases k
          exact absurd (by simpa using h) hc
      · rw [if_neg (by omega)]
        rw [ih (i + 1)]
        constructor
        · rintro ⟨k, hk, h⟩
          refine ⟨k + 1, by omega, ?_⟩
          have e : i + (k + 1) = i + 1 + k := by omega
          rwa [e]
        · rintro ⟨k, hk, h⟩
          rcases k with _ | k
          · exact absurd (by simpa using h) hc
          · refine ⟨k, by omega, ?_⟩
            have e : i + 1 + k = i + (k + 1) := by omega
            rwa [e]

/-- try_intel_arc_encoding succeeds exactly when the filter file was
written and some method succeeds in some of the three iterations. -/
theorem tryIntelArc_success_iff (writeOk : Bool) (hw : Nat → Fin 3 → Bool) :
    (tryIntelArcEncoding writeOk hw).2 = true ↔
      writeOk = true ∧ ∃ k, k < 3 ∧ ∃ m : Fin 3, hw k m = true := by
  cases writeOk with
  | false => simp [tryIntelArcEncoding]
  | true =>
    simp only [tryIntelArcEncoding, if_pos]
    rw [arcSuccess_iff hw 3 0]
    simp [cascadeOk_iff]

/-- Boolean value of the encoding stage. -/
theorem encodeStage_fst (useGpu writeOk : Bool) (hw : Nat → Fin 3 → Bool)
    (swOk : Bool) :
    (encodeStage useGpu writeOk hw swOk).1 =
      if useGpu then
        (if (tryIntelArcEncoding writeOk hw).2 then true else swOk)
      else swOk := by
  cases useGpu with
  | false => rfl
  | true =>
    cases h : (tryIntelArcEncoding writeOk hw).2 with
    | true => simp [encodeStage, h]
    | false => simp [encodeStage, h]

/-- process_video as a cascade of its failure checks. -/
theorem processVideo_eq (env : PVEnv) :
    processVideo env =
      if env.videoValid = false then false
      else if env.audioOk = false then false
      else if env.words = [] then false
      else (encodeStage env.useGpu env.hwWriteOk env.hw
        (env.swWriteOk && env.swRc0 && env.swOutExists)).1 := by
  unfold processVideo processVideoBody
  by_cases h1 : env.videoValid = false
  · simp [h1]
  · by_cases h2 : env.audioOk = false
    · simp [h1, h2]
    · by_cases h3 : env.words = []
      · simp [h1, h2, h3]
      · simp [h1, h2, h3]

/-! ## Claim C1: software fallback runs exactly once -/

/-- C1: whenever the encoding stage leaves the hardware path, either
because the GPU probe failed or because try_intel_arc_encoding exhausted
every hardware method, the attempt sequence contains the software path
exactly once and it is the final attempt, so no hardware method is ever
attempted after it; when the hardware path succeeds the software path is
never attempted. -/
theorem c1_software_once (useGpu writeOk : Bool) (hw : Nat → Fin 3 → Bool)
    (swOk : Bool) :
    ((useGpu && (tryIntelArcEncoding writeOk hw).2) = false →
      (encodeStage useGpu writeOk hw swOk).2.count EncMethod.sw = 1 ∧
        (encodeStage useGpu writeOk hw swOk).2.getLast? = some EncMethod.sw) ∧
    ((useGpu && (tryIntelArcEncoding writeOk hw).2) = true →
      (encodeStage useGpu writeOk hw swOk).2.count EncMethod.sw = 0) := by
  cases useGpu with
  | false => simp [encodeStage]
  | true =>
    cases h : (tryIntelArcEncoding writeOk hw).2 with
    | true => simp [encodeStage, h, sw_count_tryIntelArc]
    | false =>
      have e : (encodeStage true writeOk hw swOk).2 =
          (tryIntelArcEncoding writeOk hw).1 ++ [EncMethod.sw] := by
        simp [encodeStage, h]
      refine ⟨fun _ => ⟨?_, ?_⟩, fun hab => by simp [h] at hab⟩
      · rw [e, List.count_append, sw_count_tryIntelArc]
        rfl
      · rw [e, List.getLast?_append_cons]
        rfl

/-- C1 witness: the software-only run when the GPU probe fails. -/
theorem c1_software_once_witness :
    (false && (tryIntelArcEncoding false allFailHw).2) = false ∧
      ((encodeStage false false allFailHw true).2.count EncMethod.sw = 1 ∧
        (encodeStage false false allFailHw true).2.getLast? =
          some EncMethod.sw) :=
  ⟨rfl, (c1_software_once false false allFailHw true).1 rfl⟩

/-! ## Claim C2: retry grouping of the hardware methods -/

/-- C2 counterexample: when every hardware invocation fails, the attempt
sequence of the retry loop interleaves the three methods round by round,
so it is not grouped by method: the second method is attempted before the
retries of the first method are exhausted. -/
theorem c2_grouping_counterexample :
    arcTrace allFailHw 0 3 =
      [EncMethod.hwHybrid, EncMethod.hwCpuVaapi, EncMethod.hwQsv,
       EncMethod.hwHybrid, EncMethod.hwCpuVaapi, EncMethod.hwQsv,
       EncMethod.hwHybrid, EncMethod.hwCpuVaapi, EncMethod.hwQsv] ∧
    ¬ retriesGrouped (arcTrace allFailHw 0 3) := by
  have h : arcTrace allFailHw 0 3 =
      [EncMethod.hwHybrid, EncMethod.hwCpuVaapi, EncMethod.hwQsv,
       EncMethod.hwHybrid, EncMethod.hwCpuVaapi, EncMethod.hwQsv,
       EncMethod.hwHybrid, EncMethod.hwCpuVaapi, EncMethod.hwQsv] := by decide
  refine ⟨h, ?_⟩
  rw [retriesGrouped, h]
  simp [List.chain'_cons, methodRank]

/-- C2 amended: within each loop iteration the methods run in fixed
priority order, each at most once, stopping at the first success; the
whole cascade, not the individual method, is what is retried, up to 3
iterations with a 2 second backoff after each failed non-final iteration,
so each method is attempted at most 3 times in total. -/
theorem c2_grouping_amended (hw : Nat → Fin 3 → Bool) :
    arcTrace hw 0 3 = (arcRounds hw 0 3).flatten ∧
    (arcRounds hw 0 3).length ≤ 3 ∧
    (arcRounds hw 0 3).all roundShapeOk = true ∧
    (∀ m : EncMethod, (arcTrace hw 0 3).count m ≤ 3) ∧
    arcSleeps hw 0 3 ≤ 2 :=
  ⟨arcTrace_eq_flatten hw 3 0, arcRounds_length_le hw 3 0,
    arcRounds_shape hw 3 0, fun m => count_arcTrace_le hw m 3 0,
    arcSleeps_le hw 3 0⟩

/-! ## Claim C10: process_video is total and truthful -/

/-- C10: process_video always returns a boolean, every raised failure is
caught and becomes False, and the result is True exactly when the video
validated, audio extraction succeeded, at least one word was transcribed,
and either some hardware invocation succeeded under a successful GPU probe
and filter write, or the software encode succeeded. -/
theorem c10_total_result (env : PVEnv) :
    processVideo env = true ↔
      env.videoValid = true ∧ env.audioOk = true ∧ env.words ≠ [] ∧
        ((env.useGpu = true ∧ env.hwWriteOk = true ∧
            ∃ k, k < 3 ∧ ∃ m : Fin 3, env.hw k m = true) ∨
          (env.swWriteOk = true ∧ env.swRc0 = true ∧ env.swOutExists = true)) := by
  rw [processVideo_eq]
  obtain ⟨g, vv, afw, aok, ws, hwk, hwf, swk, swr, swe⟩ := env
  cases vv with
  | false => simp
  | true =>
    cases aok with
    | false => simp
    | true =>
      rcases ws with _ | ⟨w, ws2⟩
      · simp
      · have hne : (w :: ws2) ≠ ([] : List TimedWord) := by simp
        simp only [hne, Bool.not_eq_false, if_neg, if_false]
        rw [encodeStage_fst]
        cases g with
        | false =>
          simp [hne, Bool.and_eq_true, and_assoc]
        | true =>
          cases h : (tryIntelArcEncoding hwk hwf).2 with
          | true =>
            have hs := (tryIntelArc_success_iff hwk hwf).mp h
            rw [if_pos rfl, if_pos rfl]
            exact iff_of_true rfl ⟨trivial, trivial, hne, Or.inl ⟨rfl, hs.1, hs.2⟩⟩
          | false =>
            have hns : ¬ (hwk = true ∧ ∃ k, k < 3 ∧ ∃ m : Fin 3, hwf k m = true) := by
              intro hc
              have hcontra := (tryIntelArc_success_iff hwk hwf).mpr hc
              rw [h] at hcontra
              exact Bool.false_ne_true hcontra
            rw [if_pos rfl, if_neg (by simp [h])]
            constructor
            · intro hsw
              rw [Bool.and_eq_true, Bool.and_eq_true] at hsw
              exact ⟨trivial, trivial, hne, Or.inr ⟨hsw.1.1, hsw.1.2, hsw.2⟩⟩
            · rintro ⟨-, -, -, hca | ⟨h1, h2, h3⟩⟩
              · exact absurd ⟨hca.2.1, hca.2.2⟩ hns
              · rw [h1, h2, h3]
                rfl

/-! ## Claim C4: temp file cleanup -/

/-- C4 counterexample: a fully successful software-path job terminates
with success while the extracted audio file is still on disk, so not every
temporary file is removed after a terminal outcome. -/
theorem c4_cleanup_counterexample :
    processVideoFiles c4Env =
      (true, { audioFile := true, hwFilterFile := false, swFilterFile := false }) := by
  rfl

/-- C4 amended: the software filter file is always deleted after the
software encode attempt regardless of outcome; the hardware filter file is
deleted only when every hardware attempt fails, and survives when a
hardware method succeeds; the extracted audio file is never deleted once
written. -/
theorem c4_cleanup_amended (env : PVEnv) :
    (processVideoFiles env).2.swFilterFile = false ∧
    ((processVideoFiles env).2.hwFilterFile = true ↔
      (env.videoValid = true ∧ env.audioOk = true ∧ env.words ≠ [] ∧
        env.useGpu = true ∧ env.hwWriteOk = true ∧
        (tryIntelArcEncoding env.hwWriteOk env.hw).2 = true)) ∧
    ((processVideoFiles env).2.audioFile = true ↔
      (env.videoValid = true ∧ env.audioFileWritten = true)) := by
  obtain ⟨g, vv, afw, aok, ws, hwk, hwf, swk, swr, swe⟩ := env
  cases vv with
  | false => simp [processVideoFiles]
  | true =>
    cases aok with
    | false => simp [processVideoFiles]
    | true =>
      rcases ws with _ | ⟨w, ws2⟩
      · simp [processVideoFiles]
      · cases g with
        | false => simp [processVideoFiles]
        | true =>
          cases h : (tryIntelArcEncoding hwk hwf).2 with
          | true =>
            have hwk1 : hwk = true := ((tryIntelArc_success_iff hwk hwf).mp h).1
            subst hwk1
            simp [processVideoFiles, h]
          | false => simp [processVideoFiles, h]

/-! ## Claim C9: layout engine validation -/

/-- C9 counterexample: a single word of zero duration violates the
validity invariant, yet create_drawtext_filter still emits a directive for
it instead of rejecting the sequence. -/
theorem c9_validation_counterexample :
    validTimedSeq [zeroDurWord] = false ∧
      createDrawtextFilter [zeroDurWord] "/app/fonts/Lexend-Bold.ttf" 200 700 ≠ [] := by
  constructor
  · norm_num [validTimedSeq, zeroDurWord]
  · simp [createDrawtextFilter]

/-- C9 amended: the layout engine performs no validation at all: for every
input sequence, valid or not, it emits exactly one directive per word in
order, copying each word start and stop time unchanged into the enable
window of the corresponding directive. -/
theorem c9_validation_amended (ws : List TimedWord) (fp : String)
    (fs yo : Nat) (i : Nat) (h : i < ws.length)
    (h2 : i < (createDrawtextFilter ws fp fs yo).length) :
    (createDrawtextFilter ws fp fs yo).length = ws.length ∧
    ((createDrawtextFilter ws fp fs yo).get ⟨i, h2⟩).enableStart =
      (ws.get ⟨i, h⟩).start ∧
    ((createDrawtextFilter ws fp fs yo).get ⟨i, h2⟩).enableEnd =
      (ws.get ⟨i, h⟩).stop := by
  refine ⟨by simp [createDrawtextFilter], ?_, ?_⟩ <;>
    simp [createDrawtextFilter, mkDirective]

/-- C9 witness: the invalid zero-duration word is still rendered as one
directive. -/
theorem c9_validation_witness :
    0 < ([zeroDurWord] : List TimedWord).length ∧
      (createDrawtextFilter [zeroDurWord] "/app/fonts/Lexend-Bold.ttf" 200
          700).length = ([zeroDurWord] : List TimedWord).length := by
  have h : 0 < ([zeroDurWord] : List TimedWord).length := by simp
  have h2 : 0 < (createDrawtextFilter [zeroDurWord] "/app/fonts/Lexend-Bold.ttf"
      200 700).length := by simp [createDrawtextFilter]
  exact ⟨h, (c9_validation_amended [zeroDurWord] "/app/fonts/Lexend-Bold.ttf"
    200 700 0 h h2).1⟩

/-! ## Claim C8: escaping exactly once -/

/-- The apostrophe and the backslash are different characters. -/
theorem squote_ne_bslash : squote ≠ bslash := by decide

/-- Unquoting steps over an ordinary character inside quotes. -/
theorem ffUnquote_cons_plain (c : Char) (l : List Char) (hb : c ≠ bslash)
    (hq : c ≠ squote) :
    ffUnquote (c :: l) true = c :: ffUnquote l true := by
  cases l with
  | nil => simp [ffUnquote, hb, hq]
  | cons d r => simp [ffUnquote, hb, hq]

/-- Unquoting toggles the quote state on an apostrophe. -/
theorem ffUnquote_cons_squote (l : List Char) (inQ : Bool) :
    ffUnquote (squote :: l) inQ = ffUnquote l (!inQ) := by
  cases l with
  | nil => simp [ffUnquote, squote_ne_bslash]
  | cons d r => simp [ffUnquote, squote_ne_bslash]

/-- Unquoting takes the character after a backslash literally. -/
theorem ffUnquote_cons_bslash (d : Char) (l : List Char) (inQ : Bool) :
    ffUnquote (bslash :: d :: l) inQ = d :: ffUnquote l inQ := by
  simp [ffUnquote]

/-- What the downstream unquoting recovers from the escaped text plus the
closing quote: every apostrophe of the original text comes back preceded
by a spurious literal backslash. -/
theorem ffUnquote_escaped (v : List Char) (hv : ∀ c ∈ v, c ≠ bslash) :
    ffUnquote (escapeWordChars v ++ [squote]) true = doubleEscaped v := by
  induction v with
  | nil => simp [escapeWordChars, doubleEscaped, ffUnquote, squote_ne_bslash]
  | cons c v ih =>
    have hc : c ≠ bslash := hv c (List.mem_cons_self c v)
    have hv2 : ∀ x ∈ v, x ≠ bslash := fun x hx => hv x (List.mem_cons_of_mem c hx)
    by_cases hq : c = squote
    · subst hq
      have e1 : escapeWordChars (squote :: v) =
          squote :: bslash :: bslash :: bslash :: squote :: squote ::
            escapeWordChars v := by
        simp [escapeWordChars]
      rw [e1]
      simp only [List.cons_append]
      rw [ffUnquote_cons_squote, Bool.not_true, ffUnquote_cons_bslash,
        ffUnquote_cons_bslash, ffUnquote_cons_squote, Bool.not_false, ih hv2]
      simp [doubleEscaped]
    · have e1 : escapeWordChars (c :: v) = c :: escapeWordChars v := by
        simp [escapeWordChars, hq]
      rw [e1, List.cons_append, ffUnquote_cons_plain c _ hc hq, ih hv2]
      simp [doubleEscaped, hq]

/-- C8 counterexample: for the one-character word consisting of an
apostrophe, the downstream unquoting of the emitted text value yields a
backslash followed by the apostrophe instead of the bare apostrophe: the
apostrophe is escaped more than once, so the escaping is not exactly
once. -/
theorem c8_escaping_counterexample :
    ffUnquote (quotedTextValue [squote]) false = [bslash, squote] ∧
      upperWord [squote] = [squote] ∧
      ([bslash, squote] : List Char) ≠ [squote] := by
  refine ⟨by decide, by decide, by decide⟩

/-- C8 amended: the source escapes only the apostrophe, and does so one
level too deep: for every word whose case-normalized text contains no
backslash, the downstream unquoting recovers the text with a spurious
literal backslash before each apostrophe; words without apostrophes round
trip unchanged. Backslashes themselves are never escaped. -/
theorem c8_escaping_amended (w : List Char) (hw : bslash ∉ upperWord w) :
    ffUnquote (quotedTextValue w) false = doubleEscaped (upperWord w) := by
  unfold quotedTextValue
  rw [List.cons_append, ffUnquote_cons_squote, Bool.not_false]
  exact ffUnquote_escaped (upperWord w) (fun c hc he => hw (he ▸ hc))

/-- C8 witness: the amended round trip on a two-character word containing
an apostrophe. -/
theorem c8_escaping_witness :
    bslash ∉ upperWord [Char.ofNat 97, squote] ∧
      ffUnquote (quotedTextValue [Char.ofNat 97, squote]) false =
        doubleEscaped (upperWord [Char.ofNat 97, squote]) :=
  ⟨by decide, c8_escaping_amended [Char.ofNat 97, squote] (by decide)⟩
